import Mathlib

/-!
# tsuru: the docker-machine IaaS provider and the bootstrap healer

A shallow embedding of `iaas/dockermachine/iaas.go` (option merging, naming,
failure compensation, scoped release of the invoker) and of the bootstrap
healer exercised by `provision/juju/healer_test.go`.

Go maps are association lists with pairwise distinct keys (`AList`); the order
of the entries stands for the iteration order of `range`, so a statement over
every `AList` covers every iteration order.  Calls into collaborators are
recorded, in order, in a list of `Event`s.
-/

namespace dockermachine

/-! ## Data model -/

/-- Go `error` values as built with `github.com/pkg/errors`: a `fundamental`
error carries only a message (`errors.Errorf`, and any error produced by a
collaborator); `withMessage` is what `errors.Wrap`/`errors.Wrapf` return, an
error with a message and a cause. -/
inductive Error where
  | fundamental (msg : String)
  | withMessage (cause : Error) (msg : String)
deriving DecidableEq, Repr

/-- The method `Error()` of an error: a wrapped error prints its message, a
colon and the text of its cause. -/
def Error.text : Error → String
  | Error.fundamental msg => msg
  | Error.withMessage cause msg => msg ++ ": " ++ cause.text

/-- The errors reachable from an error by following `Cause()`, itself included:
what programmatic inspection of an error can see. -/
def Error.chain : Error → List Error
  | Error.fundamental msg => [Error.fundamental msg]
  | Error.withMessage cause msg => Error.withMessage cause msg :: cause.chain

/-- The function `errors.Wrap(err, msg)`, for a non-nil `err`. -/
def Wrap (err : Error) (msg : String) : Error := Error.withMessage err msg

/-- The package variable `errDriverNotSet`. -/
def errDriverNotSet : Error := Error.fundamental "driver is mandatory"

/-- Values of Go's `interface{}` as they occur in the configuration tree and in
driver options: nil, a string, an integer, a boolean, or a value of any other
dynamic type (a list, a nested map), which the provider never inspects and
which is identified here by its rendering. -/
inductive Value where
  | null
  | str (s : String)
  | int (n : Int)
  | bool (b : Bool)
  | other (rendering : String)
deriving DecidableEq, Repr

/-- Equality of association lists is equality of their entries, decided on
the entries. -/
instance (priority := 2000) decEqAList {κ : Type} {β : κ → Type} [DecidableEq κ]
    [∀ k, DecidableEq (β k)] : DecidableEq (AList β) :=
  fun a b => decidable_of_iff (a.entries = b.entries) ⟨AList.ext, fun h => congrArg _ h⟩

/-- The argument `params map[string]string`, an allocated map: `CreateMachine`
stores the resolved driver in it and deletes the `name` from it. -/
abbrev Params := AList (fun _ : String => String)

/-- The result of `buildDriverOpts`, a `map[string]interface{}`. -/
abbrev DriverOpts := AList (fun _ : String => Value)

/-- The `interface{}` that `GetConfig` returns: `nil`, a
`map[interface{}]interface{}`, or a value of any other dynamic type. -/
inductive Config where
  | null
  | dict (m : AList (fun _ : Value => Value))
  | scalar (v : Value)

/-- Modelled from the spec: the record `iaas.Machine`, whose declaration is not
among the sources; the attributes are those of the data model (section 3). -/
structure Machine where
  Name : String
  Address : String
  Port : Nat
  CreationParams : Params
  CACertPath : String
  ProviderName : String
deriving DecidableEq

/-- The struct `DockerMachineConfig`, with the three fields `CreateMachine`
fills in. -/
structure DockerMachineConfig where
  CaPath : String := ""
  InsecureRegistry : String := ""
  DockerEngineInstallURL : String := ""
deriving DecidableEq, Repr

/-- The interface `dockerMachineAPI` (the driver invoker).  `CreateMachine`
returns a possibly nil machine pointer together with a possibly nil error. -/
structure dockerMachineAPI where
  CreateMachine : String → String → DriverOpts → Option Machine × Option Error
  DeleteMachine : Machine → Option Error
  Close : Option Error

/-- The configuration lookups of `iaas.NamedIaaS` that the provider uses, taken
as given: `GetConfigString` returns a string and a possibly nil error,
`GetConfig` a dynamic value and a possibly nil error. -/
structure NamedIaaS where
  GetConfigString : String → String × Option Error
  GetConfig : String → Config × Option Error

/-- The struct `dockerMachineIaaS`.  The factory returns either a usable
invoker or a non-nil error. -/
structure dockerMachineIaaS where
  base : NamedIaaS
  apiFactory : DockerMachineConfig → Except Error dockerMachineAPI

/-- The calls `CreateMachine` and `DeleteMachine` make into their
collaborators: the machine catalog, the invoker factory and the invoker. -/
inductive Event where
  | ListMachines
  | apiFactory (cfg : DockerMachineConfig)
  | CreateMachine (name driver : String) (opts : DriverOpts)
  | DeleteMachine (m : Machine)
  | Close
deriving DecidableEq

/-- The calls made on the invoker itself: `CreateMachine`, `DeleteMachine` and
`Close`. -/
def Event.onInvoker : Event → Bool
  | Event.CreateMachine _ _ _ => true
  | Event.DeleteMachine _ => true
  | Event.Close => true
  | _ => false

/-- How a call ends: it returns a possibly nil machine and a possibly nil
error, or it panics. -/
inductive Outcome where
  | returned (m : Option Machine) (err : Option Error)
  | panicked
deriving DecidableEq

/-- One run of `CreateMachine`: how it ended, the caller's `params` map as the
run left it, and the calls made, in order. -/
structure Run where
  outcome : Outcome
  params : Params
  trace : List Event

/-! ## The provider -/

/-- The method `getParamOrConfigString`. -/
def getParamOrConfigString (i : dockerMachineIaaS) (name : String) (params : Params) :
    String × Option Error :=
  match params.lookup name with
  | some v => (v, none)
  | none => i.base.GetConfigString name

/-- The first loop of `buildDriverOpts`: entries with a string key are stored,
the others are skipped. -/
def addConfigEntry (driverOpts : DriverOpts) (k : Value) (v : Value) : DriverOpts :=
  match k with
  | Value.str s => driverOpts.insert s v
  | _ => driverOpts

/-- The second loop of `buildDriverOpts`: every entry of `params` is stored,
its string value boxed as an `interface{}`. -/
def addParam (driverOpts : DriverOpts) (k : String) (v : String) : DriverOpts :=
  driverOpts.insert k (Value.str v)

/-- The method `buildDriverOpts`.  The result is `none` when the type assertion
`config.(map[interface{}]interface{})` panics, which it does for a `config`
that is neither nil nor such a map. -/
def buildDriverOpts (i : dockerMachineIaaS) (params : Params) : Option DriverOpts :=
  let driverOpts : DriverOpts := ∅
  let config := (i.base.GetConfig "driver:options").1
  let fromConfig : Option DriverOpts :=
    match config with
    | Config.null => some driverOpts
    | Config.dict m => some (m.foldl addConfigEntry driverOpts)
    | Config.scalar _ => none
  fromConfig.map (fun d => params.foldl addParam d)

/-- The part of `CreateMachine` that runs once the invoker exists and its
`Close` is deferred (from the call of `buildDriverOpts` to the end): its outcome
and the calls it makes.  A nil machine returned with a nil error makes the
assignment to `m.CreationParams` panic. -/
def createWith (i : dockerMachineIaaS) (dockerMachine : dockerMachineAPI)
    (machineName driverName : String) (params : Params) : Outcome × List Event :=
  match buildDriverOpts i params with
  | none => (Outcome.panicked, [])
  | some driverOpts =>
    match dockerMachine.CreateMachine machineName driverName driverOpts with
    | (m, some err) =>
      match m with
      | some m =>
        match dockerMachine.DeleteMachine m with
        | some errRem =>
          (Outcome.returned none
              (some (Wrap errRem ("failed to remove failed machine: " ++ err.text))),
            [Event.CreateMachine machineName driverName driverOpts, Event.DeleteMachine m])
        | none =>
          (Outcome.returned none (some err),
            [Event.CreateMachine machineName driverName driverOpts, Event.DeleteMachine m])
      | none =>
        (Outcome.returned none (some err),
          [Event.CreateMachine machineName driverName driverOpts])
    | (some m, none) =>
      (Outcome.returned (some { m with CreationParams := params }) none,
        [Event.CreateMachine machineName driverName driverOpts])
    | (none, none) =>
      (Outcome.panicked, [Event.CreateMachine machineName driverName driverOpts])

/-- The part of `CreateMachine` from the call of the factory on: a failing
factory ends the run with its error; otherwise the body runs and the deferred
`Close` is the last call, on a return and on a panic alike. -/
def provision (i : dockerMachineIaaS) (cfg : DockerMachineConfig)
    (machineName driverName : String) (params : Params) : Outcome × List Event :=
  match i.apiFactory cfg with
  | Except.error err => (Outcome.returned none (some err), [Event.apiFactory cfg])
  | Except.ok dockerMachine =>
    let r := createWith i dockerMachine machineName driverName params
    (r.1, [Event.apiFactory cfg] ++ r.2 ++ [Event.Close])

/-- The method `CreateMachine`.  `ListMachines` is what the package function
`iaas.ListMachines()` returns if called: the machines of the catalog and a
possibly nil error.  The number `len(machines)+1` is a natural number here: a
slice of machines cannot be long enough for the sum to leave `int`. -/
def CreateMachine (i : dockerMachineIaaS) (ListMachines : List Machine × Option Error)
    (params : Params) : Run :=
  let caPath := (i.base.GetConfigString "ca-path").1
  let driver : Option (String × Params) :=
    match params.lookup "driver" with
    | some driverName => some (driverName, params)
    | none =>
      match i.base.GetConfigString "driver:name" with
      | (_, some _) => none
      | (name, none) => some (name, params.insert "driver" name)
  match driver with
  | none => ⟨Outcome.returned none (some errDriverNotSet), params, []⟩
  | some (driverName, params) =>
    let dockerEngineInstallURL :=
      match getParamOrConfigString i "docker-install-url" params with
      | (_, some _) => ""
      | (v, none) => v
    let insecureRegistry := (getParamOrConfigString i "insecure-registry" params).1
    let cfg : DockerMachineConfig :=
      { CaPath := caPath, InsecureRegistry := insecureRegistry,
        DockerEngineInstallURL := dockerEngineInstallURL }
    match params.lookup "name" with
    | none =>
      match ListMachines with
      | (_, some errList) =>
        ⟨Outcome.returned none (some (Wrap errList "failed to list machines")), params,
          [Event.ListMachines]⟩
      | (machines, none) =>
        let machineName :=
          (params.lookup "pool").getD "" ++ "-" ++ toString (machines.length + 1)
        let r := provision i cfg machineName driverName params
        ⟨r.1, params, Event.ListMachines :: r.2⟩
    | some machineName =>
      let params := params.erase "name"
      let r := provision i cfg machineName driverName params
      ⟨r.1, params, r.2⟩

/-- The `DockerMachineConfig` that `CreateMachine` hands to the factory, as a
function of `params` after the driver is resolved: the three values read at
the top of `CreateMachine`, gathered for use in statements. -/
def machineConfig (i : dockerMachineIaaS) (params : Params) : DockerMachineConfig :=
  { CaPath := (i.base.GetConfigString "ca-path").1,
    InsecureRegistry := (getParamOrConfigString i "insecure-registry" params).1,
    DockerEngineInstallURL :=
      match getParamOrConfigString i "docker-install-url" params with
      | (_, some _) => ""
      | (v, none) => v }

/-- The `params` map as lines 41 to 49 of `CreateMachine` leave it when the
driver is resolved: unchanged when it has a `driver`, and else with the
configured `driver:name` stored under `driver`. -/
def resolvedParams (i : dockerMachineIaaS) (params : Params) : Params :=
  match params.lookup "driver" with
  | some _ => params
  | none => params.insert "driver" (i.base.GetConfigString "driver:name").1

/-- The method `DeleteMachine`: the error returned and the calls made, with the
deferred `Close` last. -/
def DeleteMachine (i : dockerMachineIaaS) (m : Machine) : Option Error × List Event :=
  match i.apiFactory {} with
  | Except.error err => (some err, [Event.apiFactory {}])
  | Except.ok dockerMachine =>
    (dockerMachine.DeleteMachine m, [Event.apiFactory {}, Event.DeleteMachine m, Event.Close])

/-- The value stored under the string key `k` by what `GetConfig` returned:
none unless that is a map with an entry whose key is the string `k`. -/
def configOption (config : Config) (k : String) : Option Value :=
  match config with
  | Config.dict m => m.lookup (Value.str k)
  | _ => none

/-! ## Scenario data -/

/-- A map literal: the entries are inserted one after the other. -/
def mapOf {α : Type} (l : List (String × α)) : AList (fun _ : String => α) :=
  l.foldl (fun acc kv => acc.insert kv.1 kv.2) ∅

/-- The error of a failed configuration lookup. -/
def errNotFound : Error := Error.fundamental "key not found"

/-- A configuration in which `driver:name` is set or not, `driver:options` has
the given value, and no other key is set. -/
def fakeBase (driverName : Option String) (driverOptions : Config) : NamedIaaS where
  GetConfigString := fun key =>
    if key = "driver:name" then
      match driverName with
      | some d => (d, none)
      | none => ("", some errNotFound)
    else ("", some errNotFound)
  GetConfig := fun key =>
    if key = "driver:options" then (driverOptions, none) else (Config.null, some errNotFound)

/-- The machine a fake invoker builds for a name. -/
def fakeMachine (name : String) : Machine :=
  { Name := name, Address := "10.0.0.1", Port := 2376, CreationParams := ∅,
    CACertPath := "", ProviderName := "dockermachine" }

/-- An invoker in the manner of the fake of the provider tests: creation
returns a machine of the given name or nil, with the given error; removal
returns the given error. -/
def fakeAPI (built : Bool) (errCreate errRemove : Option Error) : dockerMachineAPI where
  CreateMachine := fun name _ _ => (if built then some (fakeMachine name) else none, errCreate)
  DeleteMachine := fun _ => errRemove
  Close := none

/-- A provider over `fakeBase` whose factory returns the given result. -/
def fakeIaaS (driverName : Option String) (driverOptions : Config)
    (api : Except Error dockerMachineAPI) : dockerMachineIaaS where
  base := fakeBase driverName driverOptions
  apiFactory := fun _ => api

/-- The `driver:options` of scenario S1: `{region: us-east-1}`. -/
def optionsS1 : Config :=
  Config.dict (AList.singleton (Value.str "region") (Value.str "us-east-1"))

/-- A `driver:options` map with a string key shared with `params`, a string key
of its own and a key that is not a string. -/
def optionsMixed : Config :=
  Config.dict ((AList.singleton (Value.str "region") (Value.str "us-east-1")
    |>.insert (Value.int 7) (Value.str "seven")).insert (Value.str "pool") (Value.str "ops"))

/-- A `driver:options` map that has the string key `name`. -/
def optionsNamed : Config :=
  Config.dict (AList.singleton (Value.str "name") (Value.str "from-config"))

/-- The error of a failed creation in the scenarios. -/
def errCreate : Error := Error.fundamental "create failed"

/-- The error of a failed removal in the scenarios. -/
def errRemove : Error := Error.fundamental "remove failed"

end dockermachine

namespace juju

/-! ## The bootstrap healer

The healer itself is not among the sources; `healer_test.go` exercises it. -/

/-- Modelled from the spec: the report of the cluster probe (section 4.5), which
is missing from the sources: `Healthy`, `BootstrapDown` or `Unknown`. -/
inductive Report where
  | Healthy
  | BootstrapDown
  | Unknown
deriving DecidableEq, Repr

/-- Modelled from the spec: what one run of the cluster CLI with the verb
`status` yields once parsed (section 4.5), missing from the sources: the report
and the address of the bootstrap node. -/
structure Status where
  report : Report
  address : String
deriving DecidableEq, Repr

/-- Modelled from the spec: the external commands of section 6, missing from the
sources: the cluster CLI and the remote shell, each with its argument vector. -/
inductive Command where
  | juju (args : List String)
  | ssh (args : List String)
deriving DecidableEq, Repr

/-- Modelled from the spec: the world outside the healer, missing from the
sources: what the `n`-th run of `juju status` yields, and the error, if any,
with which the remote shell ends for an argument vector. -/
structure Cluster where
  status : Nat → Status
  ssh : List String → Option String

/-- Modelled from the spec: `BootstrapHealer.NeedsHeal` (section 4.6, step 1),
missing from the sources: exactly one run of the probe and the test
`report == BootstrapDown`.  `n` is the number of earlier runs of the probe. -/
def NeedsHeal (c : Cluster) (n : Nat) : Bool × List Command :=
  (decide ((c.status n).report = Report.BootstrapDown), [Command.juju ["status"]])

/-- Modelled from the spec: the argument vector of the remote shell (section 6
and property 7), missing from the sources. -/
def sshArgs (address : String) : List String :=
  ["-o", "StrictHostKeyChecking no", "-q", "-l", "ubuntu", address,
    "sudo", "restart", "juju-machine-agent"]

/-- Modelled from the spec: `BootstrapHealer.Heal` (section 4.6), missing from
the sources: it probes once; when the probe needs no heal it runs nothing more
and returns no error; otherwise it reads the status again for the address of
the bootstrap node and runs the remote shell there. -/
def Heal (c : Cluster) : Option String × List Command :=
  let probe := NeedsHeal c 0
  if probe.1 then
    let args := sshArgs (c.status 1).address
    (c.ssh args, probe.2 ++ [Command.juju ["status"], Command.ssh args])
  else
    (none, probe.2)

/-- The cluster of `collectOutput`: every probe reports a healthy bootstrap
node. -/
def healthyCluster : Cluster where
  status := fun _ => { report := Report.Healthy, address := "10.10.10.96" }
  ssh := fun _ => none

/-- The cluster of `collectOutputBootstrapDown`: every probe reports the
bootstrap node at `10.10.10.96` down. -/
def downCluster : Cluster where
  status := fun _ => { report := Report.BootstrapDown, address := "10.10.10.96" }
  ssh := fun _ => none

end juju

namespace dockermachine

/-! ## Lookups in the merged option map -/

theorem lookup_singleton_ne {κ β : Type} [DecidableEq κ] {a k : κ} (b : β) (h : k ≠ a) :
    (AList.singleton a b : AList (fun _ : κ => β)).lookup k = none := by
  rw [← AList.insert_empty, AList.lookup_insert_ne h, AList.lookup_empty]

theorem lookup_foldl_addParam (l : List (Sigma (fun _ : String => String)))
    (hl : l.NodupKeys) (d : DriverOpts) (k : String) :
    (l.foldl (fun acc s => addParam acc s.1 s.2) d).lookup k =
      match l.dlookup k with
      | some v => some (Value.str v)
      | none => d.lookup k := by
  induction l generalizing d with
  | nil => simp
  | cons hd tl ih =>
    obtain ⟨hk, hv⟩ := hd
    rw [List.nodupKeys_cons] at hl
    rw [List.foldl_cons, ih hl.2]
    by_cases h : hk = k
    · subst h
      have hnone : List.dlookup hk tl = none := List.dlookup_eq_none.mpr hl.1
      simp [hnone, addParam]
    · have h2 : k ≠ hk := fun e => h e.symm
      rw [List.dlookup_cons_ne tl ⟨hk, hv⟩ h2]
      simp [addParam, AList.lookup_insert_ne h2]

theorem lookup_foldl_addConfigEntry (l : List (Sigma (fun _ : Value => Value)))
    (hl : l.NodupKeys) (d : DriverOpts) (k : String) :
    (l.foldl (fun acc s => addConfigEntry acc s.1 s.2) d).lookup k =
      match l.dlookup (Value.str k) with
      | some v => some v
      | none => d.lookup k := by
  induction l generalizing d with
  | nil => simp
  | cons hd tl ih =>
    obtain ⟨hk, hv⟩ := hd
    rw [List.nodupKeys_cons] at hl
    rw [List.foldl_cons, ih hl.2]
    by_cases h : hk = Value.str k
    · subst h
      have hnone : List.dlookup (Value.str k) tl = none := List.dlookup_eq_none.mpr hl.1
      simp [hnone, addConfigEntry]
    · have h2 : Value.str k ≠ hk := fun e => h e.symm
      rw [List.dlookup_cons_ne tl ⟨hk, hv⟩ h2]
      cases hk with
      | str s =>
        have h3 : k ≠ s := fun e => h (by rw [e])
        simp [addConfigEntry, AList.lookup_insert_ne h3]
      | null => simp [addConfigEntry]
      | int n => simp [addConfigEntry]
      | bool b => simp [addConfigEntry]
      | other r => simp [addConfigEntry]

theorem lookup_foldl_params (params : Params) (d : DriverOpts) (k : String) :
    (params.foldl addParam d).lookup k =
      match params.lookup k with
      | some v => some (Value.str v)
      | none => d.lookup k :=
  lookup_foldl_addParam params.entries params.nodupKeys d k

theorem lookup_foldl_config (m : AList (fun _ : Value => Value)) (k : String) :
    (m.foldl addConfigEntry ∅).lookup k = m.lookup (Value.str k) := by
  have h := lookup_foldl_addConfigEntry m.entries m.nodupKeys ∅ k
  unfold AList.foldl
  rw [h]
  unfold AList.lookup
  cases List.dlookup (Value.str k) m.entries <;> simp

/-- C1. Option precedence of `buildDriverOpts`: for every `params` and every
map stored under `driver:options`, the call returns a map (the entries whose
key is not a string raise no error) in which every string key `k` has the
value `params[k]` when `params` has `k`, else the configured value under the
string key `k` when there is one, and else no entry. -/
theorem buildDriverOpts_precedence (i : dockerMachineIaaS) (params : Params)
    (m : AList (fun _ : Value => Value))
    (hcfg : (i.base.GetConfig "driver:options").1 = Config.dict m) :
    ∃ driverOpts, buildDriverOpts i params = some driverOpts ∧
      ∀ k : String, driverOpts.lookup k =
        match params.lookup k with
        | some v => some (Value.str v)
        | none => m.lookup (Value.str k) := by
  refine ⟨params.foldl addParam (m.foldl addConfigEntry ∅), ?_, ?_⟩
  · simp [buildDriverOpts, hcfg]
  · intro k
    rw [lookup_foldl_params, lookup_foldl_config]

/-- Option precedence on a `driver:options` map with a key shared with `params`,
a key of its own and a key that is not a string. -/
theorem buildDriverOpts_precedence_witness :
    (∃ m, ((fakeIaaS none optionsMixed (Except.error errCreate)).base.GetConfig
        "driver:options").1 = Config.dict m) ∧
    ∃ driverOpts,
      buildDriverOpts (fakeIaaS none optionsMixed (Except.error errCreate))
        (mapOf [("pool", "dev")]) = some driverOpts ∧
      driverOpts.lookup "pool" = some (Value.str "dev") ∧
      driverOpts.lookup "region" = some (Value.str "us-east-1") ∧
      driverOpts.lookup "zone" = none := by
  refine ⟨⟨_, rfl⟩, ?_⟩
  obtain ⟨driverOpts, h, hk⟩ :=
    buildDriverOpts_precedence (fakeIaaS none optionsMixed (Except.error errCreate))
      (mapOf [("pool", "dev")]) _ rfl
  refine ⟨driverOpts, h, ?_, ?_, ?_⟩
  · rw [hk]; decide
  · rw [hk]; decide
  · rw [hk]; decide

/-- Every key of the map `buildDriverOpts` returns comes from `params` or, for
a key `params` lacks, from the string keys of `driver:options`. -/
theorem lookup_buildDriverOpts (i : dockerMachineIaaS) (p : Params) (opts : DriverOpts)
    (h : buildDriverOpts i p = some opts) (k : String) :
    opts.lookup k =
      match p.lookup k with
      | some v => some (Value.str v)
      | none => configOption (i.base.GetConfig "driver:options").1 k := by
  unfold buildDriverOpts at h
  rcases hc : (i.base.GetConfig "driver:options").1 with _ | m | v
  · simp [hc] at h
    subst h
    rw [lookup_foldl_params]
    simp [configOption]
  · simp [hc] at h
    subst h
    rw [lookup_foldl_params, lookup_foldl_config]
    simp [configOption]
  · simp [hc] at h

/-! ## The paths through `CreateMachine` -/

/-- The five ways the body under the deferred `Close` can go once the option
map is built, and the panic of `buildDriverOpts`. -/
theorem createWith_cases (i : dockerMachineIaaS) (api : dockerMachineAPI)
    (n d : String) (p : Params) :
    (buildDriverOpts i p = none ∧ createWith i api n d p = (Outcome.panicked, [])) ∨
    ∃ opts, buildDriverOpts i p = some opts ∧
      ((∃ m err errRem, api.CreateMachine n d opts = (some m, some err) ∧
          api.DeleteMachine m = some errRem ∧
          createWith i api n d p =
            (Outcome.returned none
                (some (Wrap errRem ("failed to remove failed machine: " ++ err.text))),
              [Event.CreateMachine n d opts, Event.DeleteMachine m])) ∨
       (∃ m err, api.CreateMachine n d opts = (some m, some err) ∧
          api.DeleteMachine m = none ∧
          createWith i api n d p =
            (Outcome.returned none (some err),
              [Event.CreateMachine n d opts, Event.DeleteMachine m])) ∨
       (∃ err, api.CreateMachine n d opts = (none, some err) ∧
          createWith i api n d p =
            (Outcome.returned none (some err), [Event.CreateMachine n d opts])) ∨
       (∃ m, api.CreateMachine n d opts = (some m, none) ∧
          createWith i api n d p =
            (Outcome.returned (some { m with CreationParams := p }) none,
              [Event.CreateMachine n d opts])) ∨
       (api.CreateMachine n d opts = (none, none) ∧
          createWith i api n d p = (Outcome.panicked, [Event.CreateMachine n d opts]))) := by
  unfold createWith
  rcases hb : buildDriverOpts i p with _ | opts
  · left; simp
  · right
    refine ⟨opts, rfl, ?_⟩
    rcases hc : api.CreateMachine n d opts with ⟨_ | m, _ | err⟩
    · simp [hc]
    · simp [hc]
    · simp [hc]
    · rcases hd : api.DeleteMachine m with _ | errRem
      · exact Or.inr (Or.inl ⟨m, err, rfl, hd, by simp [hc, hd]⟩)
      · exact Or.inl ⟨m, err, errRem, rfl, hd, by simp [hc, hd]⟩

/-- The factory either fails, and nothing follows its call, or succeeds, and
the body runs between its call and the deferred `Close`. -/
theorem provision_cases (i : dockerMachineIaaS) (cfg : DockerMachineConfig)
    (n d : String) (p : Params) :
    (∃ e, i.apiFactory cfg = Except.error e ∧
        provision i cfg n d p = (Outcome.returned none (some e), [Event.apiFactory cfg])) ∨
    (∃ api, i.apiFactory cfg = Except.ok api ∧
        provision i cfg n d p =
          ((createWith i api n d p).1,
            [Event.apiFactory cfg] ++ (createWith i api n d p).2 ++ [Event.Close])) := by
  unfold provision
  rcases hf : i.apiFactory cfg with e | api
  · left; exact ⟨e, rfl, rfl⟩
  · right; exact ⟨api, rfl, rfl⟩

/-- The paths through `CreateMachine` up to the call of the factory: the driver
is missing; or it is resolved (from `params`, or from the configuration and
then stored in `params`) and the name is synthesised after a listing of the
catalog, which may fail, or taken from `params` and removed from it. -/
theorem CreateMachine_cases (i : dockerMachineIaaS)
    (ListMachines : List Machine × Option Error) (params : Params) :
    (params.lookup "driver" = none ∧
      (∃ e, (i.base.GetConfigString "driver:name").2 = some e) ∧
      (CreateMachine i ListMachines params).outcome
        = Outcome.returned none (some errDriverNotSet) ∧
      (CreateMachine i ListMachines params).params = params ∧
      (CreateMachine i ListMachines params).trace = []) ∨
    ∃ driverName params1,
      ((params.lookup "driver" = some driverName ∧ params1 = params) ∨
        (params.lookup "driver" = none ∧
          i.base.GetConfigString "driver:name" = (driverName, none) ∧
          params1 = params.insert "driver" driverName)) ∧
      ((params1.lookup "name" = none ∧
          (∃ errList, ListMachines.2 = some errList ∧
            (CreateMachine i ListMachines params).outcome
              = Outcome.returned none (some (Wrap errList "failed to list machines"))) ∧
          (CreateMachine i ListMachines params).params = params1 ∧
          (CreateMachine i ListMachines params).trace = [Event.ListMachines]) ∨
       (params1.lookup "name" = none ∧ ListMachines.2 = none ∧
          ∃ r, r = provision i (machineConfig i params1)
              ((params1.lookup "pool").getD "" ++ "-" ++ toString (ListMachines.1.length + 1))
              driverName params1 ∧
            (CreateMachine i ListMachines params).outcome = r.1 ∧
            (CreateMachine i ListMachines params).params = params1 ∧
            (CreateMachine i ListMachines params).trace = Event.ListMachines :: r.2) ∨
       (∃ machineName, params1.lookup "name" = some machineName ∧
          ∃ r, r = provision i (machineConfig i params1) machineName driverName
              (params1.erase "name") ∧
            (CreateMachine i ListMachines params).outcome = r.1 ∧
            (CreateMachine i ListMachines params).params = params1.erase "name" ∧
            (CreateMachine i ListMachines params).trace = r.2)) := by
  obtain ⟨machines, errList⟩ := ListMachines
  rcases hd : params.lookup "driver" with _ | driverName
  · rcases hc : i.base.GetConfigString "driver:name" with ⟨name, _ | e⟩
    · right
      rcases hn : (params.insert "driver" name).lookup "name" with _ | machineName
      · rcases errList with _ | errList
        · refine ⟨name, _, Or.inr ⟨rfl, rfl, rfl⟩,
            Or.inr (Or.inl ⟨hn, rfl, _, rfl, ?_, ?_, ?_⟩)⟩ <;>
          simp [CreateMachine, hd, hc, hn, machineConfig]
        · refine ⟨name, _, Or.inr ⟨rfl, rfl, rfl⟩, Or.inl ⟨hn, ⟨errList, rfl, ?_⟩, ?_, ?_⟩⟩ <;>
          simp [CreateMachine, hd, hc, hn]
      · refine ⟨name, _, Or.inr ⟨rfl, rfl, rfl⟩,
          Or.inr (Or.inr ⟨machineName, hn, _, rfl, ?_, ?_, ?_⟩)⟩ <;>
        simp [CreateMachine, hd, hc, hn, machineConfig]
    · left
      simp [CreateMachine, hd, hc]
  · right
    rcases hn : params.lookup "name" with _ | machineName
    · rcases errList with _ | errList
      · refine ⟨driverName, _, Or.inl ⟨rfl, rfl⟩,
          Or.inr (Or.inl ⟨hn, rfl, _, rfl, ?_, ?_, ?_⟩)⟩ <;>
        simp [CreateMachine, hd, hn, machineConfig]
      · refine ⟨driverName, _, Or.inl ⟨rfl, rfl⟩, Or.inl ⟨hn, ⟨errList, rfl, ?_⟩, ?_, ?_⟩⟩ <;>
        simp [CreateMachine, hd, hn]
    · refine ⟨driverName, _, Or.inl ⟨rfl, rfl⟩,
        Or.inr (Or.inr ⟨machineName, hn, _, rfl, ?_, ?_, ?_⟩)⟩ <;>
      simp [CreateMachine, hd, hn, machineConfig]

/-- The only call of the factory that `provision` makes is the one on its
configuration. -/
theorem provision_factory (i : dockerMachineIaaS) (cfg0 cfg : DockerMachineConfig)
    (n d : String) (p : Params) (h : Event.apiFactory cfg ∈ (provision i cfg0 n d p).2) :
    cfg = cfg0 := by
  rcases provision_cases i cfg0 n d p with ⟨e, _, hp⟩ | ⟨api0, _, hp⟩
  · rw [hp] at h
    simpa using h
  · rw [hp] at h
    rcases createWith_cases i api0 n d p with ⟨_, hc⟩ | ⟨opts, _, hc⟩
    · rw [hc] at h
      simpa using h
    · rcases hc with ⟨_, _, _, _, _, hc⟩ | ⟨_, _, _, _, hc⟩ | ⟨_, _, hc⟩ | ⟨_, _, hc⟩ | ⟨_, hc⟩ <;>
      · rw [hc] at h
        simpa using h

theorem provision_ok (i : dockerMachineIaaS) (cfg : DockerMachineConfig)
    (api : dockerMachineAPI) (n d : String) (p : Params)
    (hapi : i.apiFactory cfg = Except.ok api) :
    provision i cfg n d p =
      ((createWith i api n d p).1,
        Event.apiFactory cfg :: ((createWith i api n d p).2 ++ [Event.Close])) := by
  simp [provision, hapi]

theorem provision_error (i : dockerMachineIaaS) (cfg : DockerMachineConfig)
    (e : Error) (n d : String) (p : Params)
    (hapi : i.apiFactory cfg = Except.error e) :
    provision i cfg n d p = (Outcome.returned none (some e), [Event.apiFactory cfg]) := by
  simp [provision, hapi]

/-- The name, the driver and the state of `params` with which `CreateMachine`
reaches the factory, whenever it reaches it: `trace` is the listing of the
catalog, if the name had to be synthesised, followed by what `provision`
does. -/
theorem CreateMachine_reaches_factory (i : dockerMachineIaaS)
    (ListMachines : List Machine × Option Error) (params : Params)
    (cfg : DockerMachineConfig)
    (hfactory : Event.apiFactory cfg ∈ (CreateMachine i ListMachines params).trace) :
    ∃ pre n d p,
      (CreateMachine i ListMachines params).trace = pre ++ (provision i cfg n d p).2 ∧
      (CreateMachine i ListMachines params).outcome = (provision i cfg n d p).1 ∧
      (CreateMachine i ListMachines params).params = p ∧
      p.lookup "name" = none ∧
      p.lookup "driver" = some d ∧
      (d = match params.lookup "driver" with
        | some v => v
        | none => (i.base.GetConfigString "driver:name").1) ∧
      (∀ k, k ≠ "name" → k ≠ "driver" → p.lookup k = params.lookup k) ∧
      (params.lookup "name" = none →
        pre = [Event.ListMachines] ∧ ListMachines.2 = none ∧
        n = (params.lookup "pool").getD "" ++ "-" ++ toString (ListMachines.1.length + 1)) ∧
      (∀ nm, params.lookup "name" = some nm → pre = [] ∧ n = nm) := by
  have hnd : ("name" : String) ≠ "driver" := by decide
  have hpd : ("pool" : String) ≠ "driver" := by decide
  rcases CreateMachine_cases i ListMachines params with
    ⟨_, _, _, _, ht⟩ | ⟨dn, p1, hdrv, ⟨_, _, _, ht⟩ | ⟨hn, hl, r, hr, ho, hp, ht⟩ |
      ⟨mn, hn, r, hr, ho, hp, ht⟩⟩
  · rw [ht] at hfactory
    simp at hfactory
  · rw [ht] at hfactory
    simp at hfactory
  · subst hr
    rw [ht] at hfactory
    simp only [List.mem_cons, reduceCtorEq, false_or] at hfactory
    have hcfg := provision_factory i _ _ _ _ _ hfactory
    rw [← hcfg] at ho ht
    refine ⟨[Event.ListMachines], _, dn, p1, by rw [ht]; rfl, ho, hp, hn, ?_⟩
    rcases hdrv with ⟨hd, rfl⟩ | ⟨hd, hc, rfl⟩
    · refine ⟨hd, by rw [hd], fun _ _ _ => rfl, fun _ => ⟨rfl, hl, rfl⟩, ?_⟩
      intro nm hnm
      rw [hn] at hnm
      cases hnm
    · rw [AList.lookup_insert_ne hnd] at hn
      refine ⟨AList.lookup_insert _, by rw [hd, hc], ?_, ?_, ?_⟩
      · intro k _ hk
        exact AList.lookup_insert_ne hk
      · intro _
        rw [AList.lookup_insert_ne hpd]
        exact ⟨rfl, hl, rfl⟩
      · intro nm hnm
        rw [hn] at hnm
        cases hnm
  · subst hr
    rw [ht] at hfactory
    have hcfg := provision_factory i _ _ _ _ _ hfactory
    rw [← hcfg] at ho ht
    refine ⟨[], mn, dn, p1.erase "name", by rw [ht]; rfl, ho, hp, AList.lookup_erase _ _, ?_⟩
    have hdn : ("driver" : String) ≠ "name" := by decide
    rcases hdrv with ⟨hd, rfl⟩ | ⟨hd, hc, rfl⟩
    · refine ⟨by rw [AList.lookup_erase_ne hdn]; exact hd, by rw [hd], ?_, ?_, ?_⟩
      · intro k hk _
        exact AList.lookup_erase_ne hk
      · intro h
        rw [hn] at h
        cases h
      · intro nm hnm
        rw [hn] at hnm
        cases hnm
        exact ⟨rfl, rfl⟩
    · rw [AList.lookup_insert_ne hnd] at hn
      refine ⟨by rw [AList.lookup_erase_ne hdn]; exact AList.lookup_insert _,
        by rw [hd, hc], ?_, ?_, ?_⟩
      · intro k hk hk2
        rw [AList.lookup_erase_ne hk]
        exact AList.lookup_insert_ne hk2
      · intro h
        rw [hn] at h
        cases h
      · intro nm hnm
        rw [hn] at hnm
        cases hnm
        exact ⟨rfl, rfl⟩

/-- When the factory is reached and returns an invoker, the calls of the run
are the listing of the catalog (if any), the call of the factory, the calls of
the body, and `Close`. -/
theorem CreateMachine_with_invoker (i : dockerMachineIaaS)
    (ListMachines : List Machine × Option Error) (params : Params)
    (cfg : DockerMachineConfig) (api : dockerMachineAPI)
    (hfactory : Event.apiFactory cfg ∈ (CreateMachine i ListMachines params).trace)
    (hapi : i.apiFactory cfg = Except.ok api) :
    ∃ pre n d p,
      (CreateMachine i ListMachines params).trace =
        pre ++ Event.apiFactory cfg :: ((createWith i api n d p).2 ++ [Event.Close]) ∧
      (pre = [] ∨ pre = [Event.ListMachines]) ∧
      (CreateMachine i ListMachines params).outcome = (createWith i api n d p).1 ∧
      (CreateMachine i ListMachines params).params = p ∧
      p.lookup "name" = none ∧
      p.lookup "driver" = some d ∧
      (d = match params.lookup "driver" with
        | some v => v
        | none => (i.base.GetConfigString "driver:name").1) ∧
      (∀ k, k ≠ "name" → k ≠ "driver" → p.lookup k = params.lookup k) ∧
      (params.lookup "name" = none →
        pre = [Event.ListMachines] ∧ ListMachines.2 = none ∧
        n = (params.lookup "pool").getD "" ++ "-" ++ toString (ListMachines.1.length + 1)) ∧
      (∀ nm, params.lookup "name" = some nm → pre = [] ∧ n = nm) := by
  obtain ⟨pre, n, d, p, ht, ho, hp, h1, h2, h3, h4, h5, h6⟩ :=
    CreateMachine_reaches_factory i ListMachines params cfg hfactory
  rw [provision_ok i cfg api n d p hapi] at ht ho
  refine ⟨pre, n, d, p, ht, ?_, ho, hp, h1, h2, h3, h4, h5, h6⟩
  rcases hn : params.lookup "name" with _ | nm
  · exact Or.inr (h5 hn).1
  · exact Or.inl (h6 nm hn).1

/-- The body calls the invoker's `CreateMachine` with the name and the driver
it was given and with the map `buildDriverOpts` returned. -/
theorem createWith_call (i : dockerMachineIaaS) (api : dockerMachineAPI)
    (n d : String) (p : Params) (mn dn : String) (o : DriverOpts)
    (h : Event.CreateMachine mn dn o ∈ (createWith i api n d p).2) :
    mn = n ∧ dn = d ∧ buildDriverOpts i p = some o := by
  rcases createWith_cases i api n d p with ⟨_, hc⟩ | ⟨opts, hb, hc⟩
  · rw [hc] at h
    simp at h
  · rcases hc with ⟨_, _, _, _, _, hc⟩ | ⟨_, _, _, _, hc⟩ | ⟨_, _, hc⟩ | ⟨_, _, hc⟩ | ⟨_, hc⟩ <;>
    · rw [hc] at h
      simp at h
      obtain ⟨rfl, rfl, rfl⟩ := h
      exact ⟨rfl, rfl, hb⟩

/-- A call of the invoker's `CreateMachine` found in the run is the call of the
body. -/
theorem call_mem_body {pre body : List Event} {cfg : DockerMachineConfig}
    {mn dn : String} {o : DriverOpts}
    (hpre : pre = [] ∨ pre = [Event.ListMachines])
    (h : Event.CreateMachine mn dn o ∈ pre ++ Event.apiFactory cfg :: (body ++ [Event.Close])) :
    Event.CreateMachine mn dn o ∈ body := by
  rcases hpre with rfl | rfl <;> simpa using h

/-- A call on the invoker occurs only in a run whose factory returned an
invoker. -/
theorem invoker_call_needs_invoker (i : dockerMachineIaaS)
    (ListMachines : List Machine × Option Error) (params : Params) (ev : Event)
    (hev : ev ∈ (CreateMachine i ListMachines params).trace) (hon : ev.onInvoker = true) :
    ∃ cfg api, Event.apiFactory cfg ∈ (CreateMachine i ListMachines params).trace ∧
      i.apiFactory cfg = Except.ok api := by
  rcases CreateMachine_cases i ListMachines params with
    ⟨_, _, _, _, ht⟩ | ⟨dn, p1, _, ⟨_, _, _, ht⟩ | ⟨_, _, r, hr, _, _, ht⟩ | ⟨mn, _, r, hr, _, _, ht⟩⟩
  · rw [ht] at hev
    simp at hev
  · rw [ht] at hev
    simp at hev
    subst hev
    simp [Event.onInvoker] at hon
  · subst hr
    rcases provision_cases i (machineConfig i p1)
        ((p1.lookup "pool").getD "" ++ "-" ++ toString (ListMachines.1.length + 1)) dn p1 with
      ⟨e, _, hp⟩ | ⟨api, hf, hp⟩
    · rw [ht, hp] at hev
      simp at hev
      rcases hev with rfl | rfl <;> simp [Event.onInvoker] at hon
    · refine ⟨machineConfig i p1, api, ?_, hf⟩
      rw [ht, hp]
      simp
  · subst hr
    rcases provision_cases i (machineConfig i p1) mn dn (p1.erase "name") with
      ⟨e, _, hp⟩ | ⟨api, hf, hp⟩
    · rw [ht, hp] at hev
      simp at hev
      subst hev
      simp [Event.onInvoker] at hon
    · refine ⟨machineConfig i p1, api, ?_, hf⟩
      rw [ht, hp]
      simp

/-- C2. Driver mandatoriness: when `params` has no `driver` key and the lookup
of `driver:name` fails, `CreateMachine` returns no machine and
`errDriverNotSet`, makes no call at all (the catalog is not listed, the factory
is not called), and leaves the caller's `params` as it was. -/
theorem CreateMachine_driver_mandatory (i : dockerMachineIaaS)
    (ListMachines : List Machine × Option Error) (params : Params)
    (hparam : params.lookup "driver" = none)
    (hconf : (i.base.GetConfigString "driver:name").2 ≠ none) :
    (CreateMachine i ListMachines params).outcome
        = Outcome.returned none (some errDriverNotSet) ∧
      (CreateMachine i ListMachines params).trace = [] ∧
      (CreateMachine i ListMachines params).params = params := by
  rcases hgc : i.base.GetConfigString "driver:name" with ⟨name, _ | e⟩
  · rw [hgc] at hconf
    exact absurd rfl hconf
  · simp [CreateMachine, hparam, hgc]

/-- Driver mandatoriness on scenario S3: `params = {pool: dev}` and no
`driver:name` in the configuration. -/
theorem CreateMachine_driver_mandatory_witness :
    (CreateMachine (fakeIaaS none optionsS1 (Except.ok (fakeAPI true none none)))
        ([], none) (mapOf [("pool", "dev")])).outcome
        = Outcome.returned none (some errDriverNotSet) ∧
      (CreateMachine (fakeIaaS none optionsS1 (Except.ok (fakeAPI true none none)))
        ([], none) (mapOf [("pool", "dev")])).trace = [] ∧
      (CreateMachine (fakeIaaS none optionsS1 (Except.ok (fakeAPI true none none)))
        ([], none) (mapOf [("pool", "dev")])).params = mapOf [("pool", "dev")] :=
  CreateMachine_driver_mandatory
    (fakeIaaS none optionsS1 (Except.ok (fakeAPI true none none))) ([], none)
    (mapOf [("pool", "dev")]) (by decide) (by decide)

/-- What `provision` does with a partly built machine: stated on its own
calls, for use under `CreateMachine`. -/
theorem provision_compensation (i : dockerMachineIaaS) (cfg0 : DockerMachineConfig)
    (n d : String) (p : Params)
    (cfg : DockerMachineConfig) (api : dockerMachineAPI)
    (machineName driverName : String) (driverOpts : DriverOpts)
    (hfactory : Event.apiFactory cfg ∈ (provision i cfg0 n d p).2)
    (hapi : i.apiFactory cfg = Except.ok api)
    (hcall : Event.CreateMachine machineName driverName driverOpts ∈ (provision i cfg0 n d p).2) :
    (∀ pm err, api.CreateMachine machineName driverName driverOpts = (some pm, some err) →
      (provision i cfg0 n d p).2.count (Event.DeleteMachine pm) = 1 ∧
      (∀ m, Event.DeleteMachine m ∈ (provision i cfg0 n d p).2 → m = pm) ∧
      ∃ e, (provision i cfg0 n d p).1 = Outcome.returned none (some e)) ∧
    (∀ err, api.CreateMachine machineName driverName driverOpts = (none, some err) →
      ∀ m, Event.DeleteMachine m ∉ (provision i cfg0 n d p).2) := by
  rcases provision_cases i cfg0 n d p with ⟨e, hf, hp⟩ | ⟨api0, hf, hp⟩
  · rw [hp] at hcall
    simp at hcall
  · rw [hp] at hfactory hcall ⊢
    rcases createWith_cases i api0 n d p with ⟨_, hc⟩ | ⟨opts, _, hc⟩
    · rw [hc] at hcall
      simp at hcall
    · have hcfg : cfg = cfg0 := by
        rcases hc with ⟨_, _, _, _, _, hc⟩ | ⟨_, _, _, _, hc⟩ | ⟨_, _, hc⟩ | ⟨_, _, hc⟩ | ⟨_, hc⟩ <;>
        · rw [hc] at hfactory
          simpa using hfactory
      subst hcfg
      rw [hf] at hapi
      cases hapi
      rcases hc with ⟨m, err, errRem, h1, h2, hc⟩ | ⟨m, err, h1, h2, hc⟩ | ⟨err, h1, hc⟩ |
        ⟨m, h1, hc⟩ | ⟨h1, hc⟩ <;>
      · rw [hc] at hcall ⊢
        simp at hcall
        obtain ⟨rfl, rfl, rfl⟩ := hcall
        simp [h1, List.count_cons]

/-- C3. Compensation: in a run of `CreateMachine` whose factory returned the
invoker `api` and which called the invoker's `CreateMachine`, when that call
returns a machine together with an error, `DeleteMachine` is called exactly
once, on that machine and on no other, and no machine is returned; when it
returns an error and a nil machine, `DeleteMachine` is not called. -/
theorem CreateMachine_compensation (i : dockerMachineIaaS)
    (ListMachines : List Machine × Option Error) (params : Params)
    (cfg : DockerMachineConfig) (api : dockerMachineAPI)
    (machineName driverName : String) (driverOpts : DriverOpts)
    (hfactory : Event.apiFactory cfg ∈ (CreateMachine i ListMachines params).trace)
    (hapi : i.apiFactory cfg = Except.ok api)
    (hcall : Event.CreateMachine machineName driverName driverOpts
      ∈ (CreateMachine i ListMachines params).trace) :
    (∀ pm err, api.CreateMachine machineName driverName driverOpts = (some pm, some err) →
      (CreateMachine i ListMachines params).trace.count (Event.DeleteMachine pm) = 1 ∧
      (∀ m, Event.DeleteMachine m ∈ (CreateMachine i ListMachines params).trace → m = pm) ∧
      ∃ e, (CreateMachine i ListMachines params).outcome = Outcome.returned none (some e)) ∧
    (∀ err, api.CreateMachine machineName driverName driverOpts = (none, some err) →
      ∀ m, Event.DeleteMachine m ∉ (CreateMachine i ListMachines params).trace) := by
  rcases CreateMachine_cases i ListMachines params with
    ⟨_, _, _, _, ht⟩ | ⟨dn, p1, _, ⟨_, _, _, ht⟩ | ⟨_, _, r, hr, ho, _, ht⟩ | ⟨mn, _, r, hr, ho, _, ht⟩⟩
  · rw [ht] at hfactory
    simp at hfactory
  · rw [ht] at hfactory
    simp at hfactory
  · rw [ht] at hfactory hcall ⊢
    rw [ho]
    subst hr
    simp only [List.mem_cons, reduceCtorEq, false_or] at hfactory hcall
    have h := provision_compensation i _ _ _ _ cfg api machineName driverName driverOpts
      hfactory hapi hcall
    refine ⟨fun pm err hr => ?_, fun err hr m => ?_⟩
    · obtain ⟨h1, h2, h3⟩ := h.1 pm err hr
      refine ⟨?_, ?_, h3⟩
      · rw [List.count_cons_of_ne (by simp), h1]
      · intro m hm
        simp only [List.mem_cons, reduceCtorEq, false_or] at hm
        exact h2 m hm
    · simp only [List.mem_cons, reduceCtorEq, false_or]
      exact h.2 err hr m
  · rw [ht] at hfactory hcall ⊢
    rw [ho]
    subst hr
    exact provision_compensation i _ _ _ _ cfg api machineName driverName driverOpts
      hfactory hapi hcall

/-- Compensation on scenario S4: the invoker returns the machine `dev-1` and an
error, and `DeleteMachine` is called once on `dev-1`. -/
theorem CreateMachine_compensation_witness :
    (CreateMachine (fakeIaaS (some "amazonec2") optionsS1
        (Except.ok (fakeAPI true (some errCreate) none)))
      ([], none) (mapOf [("pool", "dev")])).trace.count
        (Event.DeleteMachine (fakeMachine "dev-1")) = 1 := by
  have h := CreateMachine_compensation
    (fakeIaaS (some "amazonec2") optionsS1 (Except.ok (fakeAPI true (some errCreate) none)))
    ([], none) (mapOf [("pool", "dev")]) {} (fakeAPI true (some errCreate) none)
    "dev-1" "amazonec2"
    (mapOf [("region", Value.str "us-east-1"), ("driver", Value.str "amazonec2"),
      ("pool", Value.str "dev")])
    (by decide) rfl (by decide)
  exact (h.1 (fakeMachine "dev-1") errCreate rfl).1

/-- C4, as stated, fails: when creation fails with a machine and the removal
of that machine fails too, the error returned has the removal error in its
cause chain but not the creation error. -/
theorem cleanup_failure_drops_creation_cause :
    ∃ e, (CreateMachine (fakeIaaS (some "amazonec2") optionsS1
          (Except.ok (fakeAPI true (some errCreate) (some errRemove))))
        ([], none) (mapOf [("pool", "dev")])).outcome = Outcome.returned none (some e) ∧
      errRemove ∈ e.chain ∧ errCreate ∉ e.chain :=
  ⟨Wrap errRemove "failed to remove failed machine: create failed",
    by decide, by decide, by decide⟩

/-- C4, amended. When the invoker's `CreateMachine` fails with a machine and
the compensating `DeleteMachine` fails too, the error returned wraps the
removal error: its cause chain is itself followed by the chain of the removal
error, and the creation error survives as text only, its message standing in
the message of the error returned. -/
theorem CreateMachine_cleanup_failure (i : dockerMachineIaaS)
    (ListMachines : List Machine × Option Error) (params : Params)
    (cfg : DockerMachineConfig) (api : dockerMachineAPI)
    (machineName driverName : String) (driverOpts : DriverOpts)
    (pm : Machine) (err errRem : Error)
    (hfactory : Event.apiFactory cfg ∈ (CreateMachine i ListMachines params).trace)
    (hapi : i.apiFactory cfg = Except.ok api)
    (hcall : Event.CreateMachine machineName driverName driverOpts
      ∈ (CreateMachine i ListMachines params).trace)
    (hcreate : api.CreateMachine machineName driverName driverOpts = (some pm, some err))
    (hremove : api.DeleteMachine pm = some errRem) :
    ∃ e, (CreateMachine i ListMachines params).outcome = Outcome.returned none (some e) ∧
      e = Error.withMessage errRem ("failed to remove failed machine: " ++ err.text) ∧
      e.chain = e :: errRem.chain ∧
      e.text = "failed to remove failed machine: " ++ err.text ++ ": " ++ errRem.text := by
  obtain ⟨pre, n, d, p, ht, hpre, ho, -⟩ :=
    CreateMachine_with_invoker i ListMachines params cfg api hfactory hapi
  rw [ht] at hcall
  have hbody := call_mem_body hpre hcall
  obtain ⟨rfl, rfl, hb⟩ := createWith_call i api n d p _ _ _ hbody
  refine ⟨_, ?_, rfl, rfl, rfl⟩
  rw [ho]
  simp [createWith, hb, hcreate, hremove, Wrap]

/-- Cleanup failure reporting on a run in which creation fails with a machine and
the removal of that machine fails. -/
theorem CreateMachine_cleanup_failure_witness :
    ∃ e, (CreateMachine (fakeIaaS (some "amazonec2") optionsS1
          (Except.ok (fakeAPI true (some errCreate) (some errRemove))))
        ([], none) (mapOf [("pool", "dev")])).outcome = Outcome.returned none (some e) ∧
      e = Error.withMessage errRemove ("failed to remove failed machine: " ++ errCreate.text) ∧
      e.chain = e :: errRemove.chain ∧
      e.text = "failed to remove failed machine: " ++ errCreate.text ++ ": " ++ errRemove.text :=
  CreateMachine_cleanup_failure
    (fakeIaaS (some "amazonec2") optionsS1
      (Except.ok (fakeAPI true (some errCreate) (some errRemove))))
    ([], none) (mapOf [("pool", "dev")]) {} (fakeAPI true (some errCreate) (some errRemove))
    "dev-1" "amazonec2"
    (mapOf [("region", Value.str "us-east-1"), ("driver", Value.str "amazonec2"),
      ("pool", Value.str "dev")])
    (fakeMachine "dev-1") errCreate errRemove (by decide) rfl (by decide) rfl rfl

/-- Every call of the invoker's `CreateMachine` found in a run carries the
synthesised name when `params` has no `name`, and else the `name` of `params`,
in a run that does not list the catalog. -/
theorem name_of_calls (i : dockerMachineIaaS)
    (ListMachines : List Machine × Option Error) (params : Params)
    (n d : String) (o : DriverOpts)
    (hcall : Event.CreateMachine n d o ∈ (CreateMachine i ListMachines params).trace) :
    (params.lookup "name" = none →
      n = (params.lookup "pool").getD "" ++ "-" ++ toString (ListMachines.1.length + 1)) ∧
    (∀ nm, params.lookup "name" = some nm →
      n = nm ∧ Event.ListMachines ∉ (CreateMachine i ListMachines params).trace) := by
  obtain ⟨cfg, api, hfactory, hapi⟩ :=
    invoker_call_needs_invoker i ListMachines params _ hcall rfl
  obtain ⟨pre, n0, d0, p, ht, hpre, -, -, -, -, -, -, hsyn, hgiven⟩ :=
    CreateMachine_with_invoker i ListMachines params cfg api hfactory hapi
  have hcall2 := hcall
  rw [ht] at hcall2
  obtain ⟨rfl, -, -⟩ := createWith_call i api n0 d0 p _ _ _ (call_mem_body hpre hcall2)
  refine ⟨fun h => (hsyn h).2.2, fun nm h => ⟨(hgiven nm h).2, ?_⟩⟩
  rw [ht, (hgiven nm h).1]
  intro hmem
  simp only [List.nil_append, List.mem_cons, reduceCtorEq, false_or, List.mem_append,
    List.mem_singleton, or_false] at hmem
  rcases createWith_cases i api n d0 p with ⟨_, hc⟩ | ⟨opts, _, hc⟩
  · rw [hc] at hmem
    simp at hmem
  · rcases hc with ⟨_, _, _, _, _, hc⟩ | ⟨_, _, _, _, hc⟩ | ⟨_, _, hc⟩ | ⟨_, _, hc⟩ | ⟨_, hc⟩ <;>
    · rw [hc] at hmem
      simp at hmem

/-- The calls of `provision`: the factory is called first, on the configuration
given; nothing follows when it fails; when it returns an invoker and
`driver:options` is nil or a map, the next call is the invoker's
`CreateMachine` with the name and the driver given, and it is the only one. -/
theorem provision_shape (i : dockerMachineIaaS) (cfg : DockerMachineConfig)
    (n d : String) (p : Params) :
    ∃ rest0, (provision i cfg n d p).2 = Event.apiFactory cfg :: rest0 ∧
      (∀ e, i.apiFactory cfg = Except.error e → rest0 = []) ∧
      (∀ api, i.apiFactory cfg = Except.ok api →
        (∀ v, (i.base.GetConfig "driver:options").1 ≠ Config.scalar v) →
        ∃ o rest, rest0 = Event.CreateMachine n d o :: rest ∧
          ∀ n1 d1 o1, Event.CreateMachine n1 d1 o1 ∉ rest) := by
  rcases provision_cases i cfg n d p with ⟨e0, hf, hp⟩ | ⟨api0, hf, hp⟩
  · refine ⟨[], by rw [hp], fun _ _ => rfl, ?_⟩
    intro api hapi
    rw [hf] at hapi
    cases hapi
  · refine ⟨(createWith i api0 n d p).2 ++ [Event.Close], by rw [hp]; rfl, ?_, ?_⟩
    · intro e hapi
      rw [hf] at hapi
      cases hapi
    · intro api _ hopts
      rcases createWith_cases i api0 n d p with ⟨hb, _⟩ | ⟨opts, _, hc⟩
      · exfalso
        unfold buildDriverOpts at hb
        rcases hcfg : (i.base.GetConfig "driver:options").1 with _ | m | v
        · simp [hcfg] at hb
        · simp [hcfg] at hb
        · exact hopts v hcfg
      · rcases hc with ⟨m, _, _, _, _, hc⟩ | ⟨m, _, _, _, hc⟩ | ⟨_, _, hc⟩ | ⟨_, _, hc⟩ | ⟨_, hc⟩
        · exact ⟨opts, [Event.DeleteMachine m, Event.Close], by rw [hc]; rfl, by simp⟩
        · exact ⟨opts, [Event.DeleteMachine m, Event.Close], by rw [hc]; rfl, by simp⟩
        · exact ⟨opts, [Event.Close], by rw [hc]; rfl, by simp⟩
        · exact ⟨opts, [Event.Close], by rw [hc]; rfl, by simp⟩
        · exact ⟨opts, [Event.Close], by rw [hc]; rfl, by simp⟩

/-- C5. Naming: when `params` has no `name`, the driver can be resolved and
the listing of the catalog succeeds with `n` machines, the run lists the
catalog and then calls the factory; every name passed to the invoker's
`CreateMachine` is `params["pool"]` (empty when absent), a dash and `n+1` in
decimal; and when the factory returns an invoker and `driver:options` is nil
or a map, the call that follows is the invoker's `CreateMachine` with that
name, the only such call of the run.  When `params` has a `name`, the catalog
is not listed, every name passed is that one, and with a resolvable driver the
run starts with the call of the factory, followed under the same conditions by
the one call of the invoker's `CreateMachine`, with that name. -/
theorem CreateMachine_naming (i : dockerMachineIaaS)
    (ListMachines : List Machine × Option Error) (params : Params) :
    (params.lookup "name" = none → ListMachines.2 = none →
      (params.lookup "driver" ≠ none ∨ (i.base.GetConfigString "driver:name").2 = none) →
      ∃ rest0,
        (CreateMachine i ListMachines params).trace =
          Event.ListMachines ::
            Event.apiFactory (machineConfig i (resolvedParams i params)) :: rest0 ∧
        (∀ n d o, Event.CreateMachine n d o ∈ (CreateMachine i ListMachines params).trace →
          n = (params.lookup "pool").getD "" ++ "-" ++ toString (ListMachines.1.length + 1)) ∧
        (∀ e, i.apiFactory (machineConfig i (resolvedParams i params)) = Except.error e →
          rest0 = []) ∧
        (∀ api, i.apiFactory (machineConfig i (resolvedParams i params)) = Except.ok api →
          (∀ v, (i.base.GetConfig "driver:options").1 ≠ Config.scalar v) →
          ∃ d o rest,
            rest0 = Event.CreateMachine
              ((params.lookup "pool").getD "" ++ "-" ++ toString (ListMachines.1.length + 1))
              d o :: rest ∧
            ∀ n1 d1 o1, Event.CreateMachine n1 d1 o1 ∉ rest)) ∧
    (∀ name, params.lookup "name" = some name →
      Event.ListMachines ∉ (CreateMachine i ListMachines params).trace ∧
      (∀ n d o, Event.CreateMachine n d o ∈ (CreateMachine i ListMachines params).trace →
        n = name) ∧
      ((params.lookup "driver" ≠ none ∨ (i.base.GetConfigString "driver:name").2 = none) →
        ∃ rest0,
          (CreateMachine i ListMachines params).trace =
            Event.apiFactory (machineConfig i (resolvedParams i params)) :: rest0 ∧
          (∀ e, i.apiFactory (machineConfig i (resolvedParams i params)) = Except.error e →
            rest0 = []) ∧
          (∀ api, i.apiFactory (machineConfig i (resolvedParams i params)) = Except.ok api →
            (∀ v, (i.base.GetConfig "driver:options").1 ≠ Config.scalar v) →
            ∃ d o rest, rest0 = Event.CreateMachine name d o :: rest ∧
              ∀ n1 d1 o1, Event.CreateMachine n1 d1 o1 ∉ rest))) := by
  have hnd : ("name" : String) ≠ "driver" := by decide
  have hpd : ("pool" : String) ≠ "driver" := by decide
  have hres : ∀ dn p1,
      ((params.lookup "driver" = some dn ∧ p1 = params) ∨
        (params.lookup "driver" = none ∧
          i.base.GetConfigString "driver:name" = (dn, none) ∧
          p1 = params.insert "driver" dn)) →
      p1 = resolvedParams i params ∧ p1.lookup "name" = params.lookup "name" ∧
        p1.lookup "pool" = params.lookup "pool" := by
    intro dn p1 h
    rcases h with ⟨hd, rfl⟩ | ⟨hd, hc, rfl⟩
    · exact ⟨by simp [resolvedParams, hd], rfl, rfl⟩
    · exact ⟨by simp [resolvedParams, hd, hc], AList.lookup_insert_ne hnd,
        AList.lookup_insert_ne hpd⟩
  refine ⟨?_, ?_⟩
  · intro hname hlist hdriver
    rcases CreateMachine_cases i ListMachines params with
      ⟨hd, ⟨e, he⟩, _, _, _⟩ | ⟨dn, p1, hdrv, ⟨_, ⟨el, hel, _⟩, _, _⟩ | ⟨_, _, r, hr, _, _, ht⟩ |
        ⟨mn, hn, _⟩⟩
    · rcases hdriver with h | h
      · exact absurd hd h
      · rw [h] at he
        cases he
    · rw [hlist] at hel
      cases hel
    · obtain ⟨hp1, -, hpool⟩ := hres dn p1 hdrv
      subst hr
      rw [hpool, hp1] at ht
      obtain ⟨rest0, hshape, herr, hok⟩ :=
        provision_shape i (machineConfig i (resolvedParams i params))
          ((params.lookup "pool").getD "" ++ "-" ++ toString (ListMachines.1.length + 1))
          dn (resolvedParams i params)
      refine ⟨rest0, by rw [ht, hshape],
        fun n d o hcall => (name_of_calls i ListMachines params n d o hcall).1 hname, herr, ?_⟩
      intro api hapi hopts
      obtain ⟨o, rest, h1, h2⟩ := hok api hapi hopts
      exact ⟨dn, o, rest, h1, h2⟩
    · rw [(hres dn p1 hdrv).2.1, hname] at hn
      cases hn
  · intro name hname
    refine ⟨?_, fun n d o hcall =>
      ((name_of_calls i ListMachines params n d o hcall).2 name hname).1, ?_⟩
    · rcases CreateMachine_cases i ListMachines params with
        ⟨_, _, _, _, ht⟩ | ⟨dn, p1, hdrv, hrest⟩
      · rw [ht]
        simp
      · have hn1 : p1.lookup "name" = some name := by
          rw [(hres dn p1 hdrv).2.1]
          exact hname
        rcases hrest with ⟨hn, _⟩ | ⟨hn, _⟩ | ⟨mn, hn, r, hr, _, _, ht⟩
        · rw [hn1] at hn
          cases hn
        · rw [hn1] at hn
          cases hn
        · subst hr
          rw [ht]
          rcases provision_cases i (machineConfig i p1) mn dn (p1.erase "name") with
            ⟨e, _, hp⟩ | ⟨api, _, hp⟩
          · rw [hp]
            simp
          · rw [hp]
            rcases createWith_cases i api mn dn (p1.erase "name") with ⟨_, hc⟩ | ⟨opts, _, hc⟩
            · rw [hc]
              simp
            · rcases hc with ⟨_, _, _, _, _, hc⟩ | ⟨_, _, _, _, hc⟩ | ⟨_, _, hc⟩ | ⟨_, _, hc⟩ |
                ⟨_, hc⟩ <;>
              · rw [hc]
                simp
    · intro hdriver
      rcases CreateMachine_cases i ListMachines params with
        ⟨hd, ⟨e, he⟩, _, _, _⟩ | ⟨dn, p1, hdrv, hrest⟩
      · rcases hdriver with h | h
        · exact absurd hd h
        · rw [h] at he
          cases he
      · obtain ⟨hp1, hnm, -⟩ := hres dn p1 hdrv
        have hn1 : p1.lookup "name" = some name := by
          rw [hnm]
          exact hname
        rcases hrest with ⟨hn, _⟩ | ⟨hn, _⟩ | ⟨mn, hn, r, hr, _, _, ht⟩
        · rw [hn1] at hn
          cases hn
        · rw [hn1] at hn
          cases hn
        · rw [hn1] at hn
          cases hn
          subst hr
          rw [hp1] at ht
          obtain ⟨rest0, hshape, herr, hok⟩ :=
            provision_shape i (machineConfig i (resolvedParams i params)) name dn
              ((resolvedParams i params).erase "name")
          refine ⟨rest0, by rw [ht, hshape], herr, ?_⟩
          intro api hapi hopts
          obtain ⟨o, rest, h1, h2⟩ := hok api hapi hopts
          exact ⟨dn, o, rest, h1, h2⟩

/-- Naming on scenario S1: the catalog is empty, and the run lists it, calls
the factory and then the invoker with the name `dev-1`. -/
theorem CreateMachine_naming_witness :
    ∃ d o rest,
      (CreateMachine (fakeIaaS (some "amazonec2") optionsS1
          (Except.ok (fakeAPI true none none))) ([], none) (mapOf [("pool", "dev")])).trace =
        Event.ListMachines :: Event.apiFactory {} ::
          Event.CreateMachine "dev-1" d o :: rest ∧
      ∀ n1 d1 o1, Event.CreateMachine n1 d1 o1 ∉ rest := by
  obtain ⟨rest0, ht, -, -, hok⟩ :=
    (CreateMachine_naming (fakeIaaS (some "amazonec2") optionsS1
      (Except.ok (fakeAPI true none none))) ([], none) (mapOf [("pool", "dev")])).1
      (by decide) rfl (Or.inr rfl)
  obtain ⟨d, o, rest, hr, hno⟩ := hok (fakeAPI true none none) rfl
    (fun v h => Config.noConfusion h)
  refine ⟨d, o, rest, ?_, hno⟩
  rw [ht, hr]
  rfl

/-- C6, as stated, fails: with a `driver:options` map that has the string key
`name`, the option map passed to the invoker has a `name` key. -/
theorem CreateMachine_configured_name_reaches_driver :
    ∃ n d o, Event.CreateMachine n d o ∈ (CreateMachine (fakeIaaS (some "amazonec2")
        optionsNamed (Except.ok (fakeAPI true none none)))
        ([], none) (mapOf [("pool", "dev")])).trace ∧
      o.lookup "name" = some (Value.str "from-config") :=
  ⟨"dev-1", "amazonec2",
    mapOf [("name", Value.str "from-config"), ("driver", Value.str "amazonec2"),
      ("pool", Value.str "dev")], by decide, by decide⟩

/-- C6, amended. The `name` of `params` never reaches the driver: in the option
map passed to the invoker's `CreateMachine` the key `name` has the value
configured under the string key `name` of `driver:options`, and is absent
when there is none. -/
theorem CreateMachine_params_name_never_reaches_driver (i : dockerMachineIaaS)
    (ListMachines : List Machine × Option Error) (params : Params)
    (n d : String) (o : DriverOpts)
    (hcall : Event.CreateMachine n d o ∈ (CreateMachine i ListMachines params).trace) :
    o.lookup "name" = configOption (i.base.GetConfig "driver:options").1 "name" := by
  obtain ⟨cfg, api, hfactory, hapi⟩ :=
    invoker_call_needs_invoker i ListMachines params _ hcall rfl
  obtain ⟨pre, n0, d0, p, ht, hpre, -, -, hname, -⟩ :=
    CreateMachine_with_invoker i ListMachines params cfg api hfactory hapi
  rw [ht] at hcall
  obtain ⟨-, -, hb⟩ := createWith_call i api n0 d0 p _ _ _ (call_mem_body hpre hcall)
  rw [lookup_buildDriverOpts i p o hb "name", hname]

/-- Scenario S2: with `params = {driver: virtualbox, name: box, foo: bar}` the
option map passed, `{driver: virtualbox, foo: bar}`, has no `name` key. -/
theorem CreateMachine_params_name_never_reaches_driver_witness :
    (mapOf [("foo", Value.str "bar"), ("driver", Value.str "virtualbox")]).lookup "name" =
      configOption ((fakeIaaS none Config.null
        (Except.ok (fakeAPI true none none))).base.GetConfig "driver:options").1 "name" :=
  CreateMachine_params_name_never_reaches_driver
    (fakeIaaS none Config.null (Except.ok (fakeAPI true none none))) ([], none)
    (mapOf [("driver", "virtualbox"), ("name", "box"), ("foo", "bar")])
    "box" "virtualbox" _ (by decide)

/-- C7, as stated, fails: in scenario S1 the invoker is not called with an
option map equal to `{region: us-east-1, pool: dev}`. -/
theorem S1_options_not_as_stated :
    ¬ ∃ opts, Event.CreateMachine "dev-1" "amazonec2" opts ∈
        (CreateMachine (fakeIaaS (some "amazonec2") optionsS1
          (Except.ok (fakeAPI true none none))) ([], none) (mapOf [("pool", "dev")])).trace ∧
      ∀ k, opts.lookup k =
        (mapOf [("region", Value.str "us-east-1"), ("pool", Value.str "dev")]).lookup k := by
  rintro ⟨opts, hmem, h⟩
  have ht : (CreateMachine (fakeIaaS (some "amazonec2") optionsS1
      (Except.ok (fakeAPI true none none))) ([], none) (mapOf [("pool", "dev")])).trace =
      [Event.ListMachines, Event.apiFactory {},
        Event.CreateMachine "dev-1" "amazonec2"
          (mapOf [("region", Value.str "us-east-1"), ("driver", Value.str "amazonec2"),
            ("pool", Value.str "dev")]),
        Event.Close] := by decide
  rw [ht] at hmem
  simp only [List.mem_cons, reduceCtorEq, false_or, Event.CreateMachine.injEq, true_and,
    List.mem_singleton, or_false, List.not_mem_nil] at hmem
  subst hmem
  exact absurd (h "driver") (by decide)

/-- C7, amended. Scenario S1: with `driver:name = amazonec2`,
`driver:options = {region: us-east-1}`, `params = {pool: dev}` and an empty
catalog, a run whose factory returns an invoker calls it with the name
`dev-1`, the driver `amazonec2` and an option map equal to
`{region: us-east-1, pool: dev, driver: amazonec2}`, and makes no other call
of the invoker's `CreateMachine`. -/
theorem scenario_S1 (i : dockerMachineIaaS) (cfg : DockerMachineConfig)
    (api : dockerMachineAPI)
    (hname : i.base.GetConfigString "driver:name" = ("amazonec2", none))
    (hopts : (i.base.GetConfig "driver:options").1 = optionsS1)
    (hfactory : Event.apiFactory cfg ∈
      (CreateMachine i ([], none) (mapOf [("pool", "dev")])).trace)
    (hapi : i.apiFactory cfg = Except.ok api) :
    ∃ opts,
      Event.CreateMachine "dev-1" "amazonec2" opts ∈
        (CreateMachine i ([], none) (mapOf [("pool", "dev")])).trace ∧
      (∀ n d o, Event.CreateMachine n d o ∈
          (CreateMachine i ([], none) (mapOf [("pool", "dev")])).trace →
        n = "dev-1" ∧ d = "amazonec2" ∧ o = opts) ∧
      ∀ k, opts.lookup k =
        (mapOf [("region", Value.str "us-east-1"), ("pool", Value.str "dev"),
          ("driver", Value.str "amazonec2")]).lookup k := by
  obtain ⟨pre, n, d, p, ht, hpre, -, -, hnm, hdrv, hd, hother, hsyn, -⟩ :=
    CreateMachine_with_invoker i ([], none) (mapOf [("pool", "dev")]) cfg api hfactory hapi
  have hn : n = "dev-1" := by
    rw [(hsyn (by decide)).2.2]
    decide
  have hd2 : d = "amazonec2" := by
    have h0 : (mapOf [("pool", "dev")]).lookup "driver" = none := by decide
    rw [hd, h0, hname]
  subst hn hd2
  rcases createWith_cases i api "dev-1" "amazonec2" p with ⟨hb, _⟩ | ⟨opts, hb, hc⟩
  · unfold buildDriverOpts at hb
    simp [hopts, optionsS1] at hb
  · refine ⟨opts, ?_, ?_, ?_⟩
    · rw [ht]
      rcases hc with ⟨_, _, _, _, _, hc⟩ | ⟨_, _, _, _, hc⟩ | ⟨_, _, hc⟩ | ⟨_, _, hc⟩ | ⟨_, hc⟩ <;>
      · rw [hc]
        simp
    · intro n d o hcall
      rw [ht] at hcall
      obtain ⟨h1, h2, h3⟩ := createWith_call i api _ _ p _ _ _ (call_mem_body hpre hcall)
      rw [hb] at h3
      exact ⟨h1, h2, (Option.some.inj h3).symm⟩
    · intro k
      rw [lookup_buildDriverOpts i p opts hb k, hopts]
      by_cases hk1 : k = "name"
      · subst hk1
        rw [hnm]
        decide
      · by_cases hk2 : k = "driver"
        · subst hk2
          rw [hdrv]
          decide
        · rw [hother k hk1 hk2]
          by_cases hk3 : k = "pool"
          · subst hk3
            decide
          · by_cases hk4 : k = "region"
            · subst hk4
              decide
            · have hk5 : Value.str k ≠ Value.str "region" := fun e => hk4 (Value.str.inj e)
              simp [mapOf, optionsS1, configOption, AList.lookup_insert_ne hk2,
                AList.lookup_insert_ne hk3, lookup_singleton_ne _ hk3,
                lookup_singleton_ne _ hk4, lookup_singleton_ne _ hk5]

/-- Scenario S1 on a provider whose invoker builds the machine. -/
theorem scenario_S1_witness :
    ∃ opts,
      Event.CreateMachine "dev-1" "amazonec2" opts ∈
        (CreateMachine (fakeIaaS (some "amazonec2") optionsS1
          (Except.ok (fakeAPI true none none))) ([], none) (mapOf [("pool", "dev")])).trace ∧
      (∀ n d o, Event.CreateMachine n d o ∈
          (CreateMachine (fakeIaaS (some "amazonec2") optionsS1
            (Except.ok (fakeAPI true none none))) ([], none) (mapOf [("pool", "dev")])).trace →
        n = "dev-1" ∧ d = "amazonec2" ∧ o = opts) ∧
      ∀ k, opts.lookup k =
        (mapOf [("region", Value.str "us-east-1"), ("pool", Value.str "dev"),
          ("driver", Value.str "amazonec2")]).lookup k :=
  scenario_S1 (fakeIaaS (some "amazonec2") optionsS1 (Except.ok (fakeAPI true none none)))
    {} (fakeAPI true none none) rfl rfl (by decide) rfl

/-- A machine is returned only by a run whose factory returned an invoker. -/
theorem success_needs_invoker (i : dockerMachineIaaS)
    (ListMachines : List Machine × Option Error) (params : Params) (m : Machine)
    (hok : (CreateMachine i ListMachines params).outcome = Outcome.returned (some m) none) :
    ∃ cfg api, Event.apiFactory cfg ∈ (CreateMachine i ListMachines params).trace ∧
      i.apiFactory cfg = Except.ok api := by
  rcases CreateMachine_cases i ListMachines params with
    ⟨_, _, ho, _, _⟩ | ⟨dn, p1, _, ⟨_, ⟨_, _, ho⟩, _, _⟩ | ⟨_, _, r, hr, ho, _, ht⟩ |
      ⟨mn, _, r, hr, ho, _, ht⟩⟩
  · rw [ho] at hok
    cases hok
  · rw [ho] at hok
    cases hok
  · subst hr
    rcases provision_cases i (machineConfig i p1)
        ((p1.lookup "pool").getD "" ++ "-" ++ toString (ListMachines.1.length + 1)) dn p1 with
      ⟨e, _, hp⟩ | ⟨api, hf, hp⟩
    · rw [ho, hp] at hok
      cases hok
    · refine ⟨machineConfig i p1, api, ?_, hf⟩
      rw [ht, hp]
      simp
  · subst hr
    rcases provision_cases i (machineConfig i p1) mn dn (p1.erase "name") with
      ⟨e, _, hp⟩ | ⟨api, hf, hp⟩
    · rw [ho, hp] at hok
      cases hok
    · refine ⟨machineConfig i p1, api, ?_, hf⟩
      rw [ht, hp]
      simp

/-- C8. Recorded creation params: the `CreationParams` of the machine a
successful `CreateMachine` returns is the `params` map as the run left it: it
has no `name` key, agrees with the caller's `params` on every key other than
`name` and `driver`, and has a `driver` key whose value is the caller's
`params["driver"]` when supplied and else the configured `driver:name`, which
is the driver handed to the invoker. -/
theorem CreateMachine_creation_params (i : dockerMachineIaaS)
    (ListMachines : List Machine × Option Error) (params : Params) (m : Machine)
    (hok : (CreateMachine i ListMachines params).outcome = Outcome.returned (some m) none) :
    m.CreationParams = (CreateMachine i ListMachines params).params ∧
    m.CreationParams.lookup "name" = none ∧
    (∀ k, k ≠ "name" → k ≠ "driver" → m.CreationParams.lookup k = params.lookup k) ∧
    ∃ d, m.CreationParams.lookup "driver" = some d ∧
      (d = match params.lookup "driver" with
        | some v => v
        | none => (i.base.GetConfigString "driver:name").1) ∧
      (∃ n o, Event.CreateMachine n d o ∈ (CreateMachine i ListMachines params).trace) ∧
      ∀ n d1 o, Event.CreateMachine n d1 o ∈ (CreateMachine i ListMachines params).trace →
        d1 = d := by
  obtain ⟨cfg, api, hfactory, hapi⟩ := success_needs_invoker i ListMachines params m hok
  obtain ⟨pre, n, d, p, ht, hpre, ho, hp, hnm, hdrv, hd, hother, -, -⟩ :=
    CreateMachine_with_invoker i ListMachines params cfg api hfactory hapi
  rw [ho] at hok
  have huniq : ∀ n1 d1 o, Event.CreateMachine n1 d1 o ∈
      (CreateMachine i ListMachines params).trace → d1 = d := by
    intro n1 d1 o hcall
    rw [ht] at hcall
    exact (createWith_call i api n d p _ _ _ (call_mem_body hpre hcall)).2.1
  rcases createWith_cases i api n d p with ⟨_, hc⟩ | ⟨opts, _, hc⟩
  · rw [hc] at hok
    cases hok
  · rcases hc with ⟨_, _, _, _, _, hc⟩ | ⟨_, _, _, _, hc⟩ | ⟨_, _, hc⟩ | ⟨m0, _, hc⟩ | ⟨_, hc⟩
    · rw [hc] at hok
      cases hok
    · rw [hc] at hok
      cases hok
    · rw [hc] at hok
      cases hok
    · rw [hc] at hok
      simp only [Outcome.returned.injEq, Option.some.injEq, and_true] at hok
      subst hok
      refine ⟨hp.symm, hnm, hother, d, hdrv, hd, ⟨n, opts, ?_⟩, huniq⟩
      rw [ht, hc]
      simp
    · rw [hc] at hok
      cases hok

/-- Recorded creation params on scenario S2: the machine returned records
`{driver: virtualbox, foo: bar}`, without the `name`. -/
theorem CreateMachine_creation_params_witness :
    ({ fakeMachine "box" with
        CreationParams := mapOf [("driver", "virtualbox"), ("foo", "bar")] } :
      Machine).CreationParams.lookup "name" = none :=
  (CreateMachine_creation_params
    (fakeIaaS none Config.null (Except.ok (fakeAPI true none none))) ([], none)
    (mapOf [("driver", "virtualbox"), ("name", "box"), ("foo", "bar")])
    { fakeMachine "box" with CreationParams := mapOf [("driver", "virtualbox"), ("foo", "bar")] }
    (by decide)).2.1

/-- C9. Scoped release: in a run of `CreateMachine` whose factory returned an
invoker, `Close` is called exactly once and is the last call of the run, after
the invoker's `CreateMachine` (which is called unless `buildDriverOpts`
panicked) and after any `DeleteMachine`; when the factory fails, its error is
returned as it is and no call is made on an invoker.  `DeleteMachine` does the
same: with an invoker it calls `DeleteMachine` and then `Close`, once each, and
returns what the invoker returned; without one it returns the error of the
factory and calls nothing else. -/
theorem invoker_scoped_release (i : dockerMachineIaaS)
    (ListMachines : List Machine × Option Error) (params : Params) (m : Machine) :
    (∀ cfg api, Event.apiFactory cfg ∈ (CreateMachine i ListMachines params).trace →
      i.apiFactory cfg = Except.ok api →
      ∃ body, (CreateMachine i ListMachines params).trace = body ++ [Event.Close] ∧
        Event.Close ∉ body ∧
        (CreateMachine i ListMachines params).trace.count Event.Close = 1 ∧
        ((∀ v, (i.base.GetConfig "driver:options").1 ≠ Config.scalar v) →
          ∃ n d o, Event.CreateMachine n d o ∈ body)) ∧
    (∀ cfg e, Event.apiFactory cfg ∈ (CreateMachine i ListMachines params).trace →
      i.apiFactory cfg = Except.error e →
      (CreateMachine i ListMachines params).outcome = Outcome.returned none (some e) ∧
      ∀ ev ∈ (CreateMachine i ListMachines params).trace, ev.onInvoker = false) ∧
    (∀ api, i.apiFactory {} = Except.ok api →
      DeleteMachine i m =
        (api.DeleteMachine m, [Event.apiFactory {}, Event.DeleteMachine m, Event.Close])) ∧
    (∀ e, i.apiFactory {} = Except.error e →
      DeleteMachine i m = (some e, [Event.apiFactory {}])) := by
  refine ⟨?_, ?_, ?_, ?_⟩
  · intro cfg api hfactory hapi
    obtain ⟨pre, n, d, p, ht, hpre, -⟩ :=
      CreateMachine_with_invoker i ListMachines params cfg api hfactory hapi
    refine ⟨pre ++ Event.apiFactory cfg :: (createWith i api n d p).2, ?_, ?_, ?_, ?_⟩
    · rw [ht]
      simp
    · rcases createWith_cases i api n d p with ⟨_, hc⟩ | ⟨opts, _, hc⟩
      · rw [hc]
        rcases hpre with rfl | rfl <;> simp
      · rcases hc with ⟨_, _, _, _, _, hc⟩ | ⟨_, _, _, _, hc⟩ | ⟨_, _, hc⟩ | ⟨_, _, hc⟩ |
          ⟨_, hc⟩ <;>
        · rw [hc]
          rcases hpre with rfl | rfl <;> simp
    · rw [ht]
      rcases createWith_cases i api n d p with ⟨_, hc⟩ | ⟨opts, _, hc⟩
      · rw [hc]
        rcases hpre with rfl | rfl <;> simp [List.count_cons]
      · rcases hc with ⟨_, _, _, _, _, hc⟩ | ⟨_, _, _, _, hc⟩ | ⟨_, _, hc⟩ | ⟨_, _, hc⟩ |
          ⟨_, hc⟩ <;>
        · rw [hc]
          rcases hpre with rfl | rfl <;> simp [List.count_cons]
    · intro hopts
      rcases createWith_cases i api n d p with ⟨hb, _⟩ | ⟨opts, _, hc⟩
      · exfalso
        unfold buildDriverOpts at hb
        rcases hcfg : (i.base.GetConfig "driver:options").1 with _ | m | v
        · simp [hcfg] at hb
        · simp [hcfg] at hb
        · exact hopts v hcfg
      · refine ⟨n, d, opts, ?_⟩
        rcases hc with ⟨_, _, _, _, _, hc⟩ | ⟨_, _, _, _, hc⟩ | ⟨_, _, hc⟩ | ⟨_, _, hc⟩ |
          ⟨_, hc⟩ <;>
        · rw [hc]
          simp
  · intro cfg e hfactory hapi
    obtain ⟨pre, n, d, p, ht, ho, -, -, -, -, -, hsyn, hgiven⟩ :=
      CreateMachine_reaches_factory i ListMachines params cfg hfactory
    rw [provision_error i cfg e n d p hapi] at ht ho
    refine ⟨ho, ?_⟩
    rw [ht]
    rcases hn : params.lookup "name" with _ | nm
    · rw [(hsyn hn).1]
      intro ev hev
      simp at hev
      rcases hev with rfl | rfl <;> rfl
    · rw [(hgiven nm hn).1]
      intro ev hev
      simp at hev
      subst hev
      rfl
  · intro api hapi
    simp [DeleteMachine, hapi]
  · intro e hapi
    simp [DeleteMachine, hapi]

/-- Scoped release on a run in which creation fails with a machine and the
removal of that machine fails: `Close` is the last call and the only `Close`. -/
theorem invoker_scoped_release_witness :
    ∃ body,
      (CreateMachine (fakeIaaS (some "amazonec2") optionsS1
          (Except.ok (fakeAPI true (some errCreate) (some errRemove))))
        ([], none) (mapOf [("pool", "dev")])).trace = body ++ [Event.Close] ∧
      Event.Close ∉ body ∧
      (CreateMachine (fakeIaaS (some "amazonec2") optionsS1
          (Except.ok (fakeAPI true (some errCreate) (some errRemove))))
        ([], none) (mapOf [("pool", "dev")])).trace.count Event.Close = 1 ∧
      ((∀ v, ((fakeIaaS (some "amazonec2") optionsS1
          (Except.ok (fakeAPI true (some errCreate) (some errRemove)))).base.GetConfig
            "driver:options").1 ≠ Config.scalar v) →
        ∃ n d o, Event.CreateMachine n d o ∈ body) :=
  (invoker_scoped_release
    (fakeIaaS (some "amazonec2") optionsS1
      (Except.ok (fakeAPI true (some errCreate) (some errRemove))))
    ([], none) (mapOf [("pool", "dev")]) (fakeMachine "dev-1")).1 {}
    (fakeAPI true (some errCreate) (some errRemove)) (by decide) rfl

end dockermachine

namespace juju

/-- C10. Healer gating: `Heal` runs the remote shell if and only if
`NeedsHeal` is true for the probe of that invocation, the first run of
`juju status`; when that probe reports a healthy bootstrap node, `Heal`
returns no error after exactly one command, a single `juju status`, and no
remote shell. -/
theorem Heal_gating (c : Cluster) :
    ((∃ args, Command.ssh args ∈ (Heal c).2) ↔ (NeedsHeal c 0).1 = true) ∧
    ((c.status 0).report = Report.Healthy →
      Heal c = (none, [Command.juju ["status"]])) := by
  constructor
  · by_cases h : (c.status 0).report = Report.BootstrapDown
    · simp [Heal, NeedsHeal, h]
    · simp [Heal, NeedsHeal, h]
  · intro h
    simp [Heal, NeedsHeal, h]

/-- Scenario S6: on a healthy cluster `Heal` runs one `juju status` and nothing
else. -/
theorem Heal_gating_witness :
    Heal healthyCluster = (none, [Command.juju ["status"]]) :=
  (Heal_gating healthyCluster).2 rfl

end juju
